import Mathlib

/-!
Shallow embedding of `app.py` (duct-weight-extraction).

The source is a pandas/streamlit pipeline.  We embed its pure core:

* the regex helpers `extract_duct_no`, `extract_unit_wbs`,
  `detect_duct_prefix_for_block` (regexes are modelled by structural
  functions on `List Char` with exactly the source patterns' semantics;
  Python string primitives `strip`, `upper`, `split` are modelled on
  `List Char` as well, ASCII-faithful);
* the derived-column stage of `load_uploaded_excels` (`process` below):
  `Duct No`, `Unit No`/`WBS Code`, `Duct Key`, the `fillna(0)` weight
  coercion;
* `summarize_by_duct_vendor_po` and `build_master_sheet`;
* the ingest/error-collection skeleton of `load_uploaded_excels`.

Modelling choices: a dataframe cell read with `dtype=str` is `Option
String` (`none` = NaN, i.e. "not a string"); the output of
`pd.to_numeric(..., errors="coerce")` is `Option Int` (`none` =
unparseable/missing; exact integer arithmetic stands in for float64,
whose rounding is out of scope); the output of `pd.to_datetime(...,
errors="coerce")` is `Option Nat` (`none` = NaT), ordered by `≤`.
`np.where`/`astype(str)` renders a missing value as the string "None",
exactly as pandas does.  Sorting (`sort_values`, `na_position="last"`)
is modelled by `List.insertionSort` over comparators that put `none`
last; the source's quicksort is unstable, so order among full ties is
not part of any claim.  Column selection / renaming / date formatting
of the two report downloads is presentation only and is not modelled.
-/

namespace DuctApp

/-! ## Python string primitives, structurally on `List Char` -/

/-- Python `str.strip()` (whitespace both ends). -/
def pyStrip (cs : List Char) : List Char :=
  ((cs.dropWhile Char.isWhitespace).reverse.dropWhile Char.isWhitespace).reverse

/-- Python `str.strip("-")` (hyphens both ends). -/
def pyStripDash (cs : List Char) : List Char :=
  ((cs.dropWhile (fun c => c == '-')).reverse.dropWhile (fun c => c == '-')).reverse

/-- Python `str.upper()` (ASCII; `Char.toUpper` is ASCII-only, like the
data that reaches the pipeline). -/
def upperStr (s : String) : String := String.mk (s.toList.map Char.toUpper)

/-- Python `str.split("-")`: keeps empty segments, `"" ↦ [""]`. -/
def splitDash : List Char → List (List Char)
  | [] => [[]]
  | c :: rest =>
    match splitDash rest, c == '-' with
    | r, true => [] :: r
    | [], false => [[c]]
    | g :: gs, false => (c :: g) :: gs

/-- Python regex `\w` (ASCII word character). -/
def wordChar (c : Char) : Bool := c.isAlphanum || c == '_'

/-! ## `RE_DUCT_NO = (\d{3})(?:P\d{2}|[A-Z]{1,3}\d{2,3}|\d{3})$` and
`extract_duct_no` (app.py lines 51, 59-65).

`re.search` with a `$`-anchored pattern: the leftmost start position
whose match consumes the rest of the string.  (`$` in Python also
matches before a final newline, but the input is `.strip()`-ed first,
so no trailing newline survives.)  `ductTail` is the non-capturing
alternation, which must consume its whole argument. -/

/-- Alternative `P\d{2}`. -/
def ductTailP : List Char → Bool
  | ['P', a, b] => a.isDigit && b.isDigit
  | _ => false

/-- Alternative `[A-Z]{1,3}\d{2,3}` (consuming the whole list; letters
and digits are disjoint, so the backtracking split is the unique
letters-then-digits split). -/
def ductTailLetters (cs : List Char) : Bool :=
  let ls := cs.takeWhile (fun c => decide ('A' ≤ c) && decide (c ≤ 'Z'))
  let ds := cs.drop ls.length
  decide (1 ≤ ls.length) && decide (ls.length ≤ 3) &&
    decide (2 ≤ ds.length) && decide (ds.length ≤ 3) && ds.all Char.isDigit

/-- Alternative `\d{3}`. -/
def ductTail3 (cs : List Char) : Bool :=
  decide (cs.length = 3) && cs.all Char.isDigit

/-- The alternation `(?:P\d{2}|[A-Z]{1,3}\d{2,3}|\d{3})`, consuming all
of `cs` (the pattern is `$`-anchored). -/
def ductTail (cs : List Char) : Bool :=
  ductTailP cs || ductTailLetters cs || ductTail3 cs

/-- `RE_DUCT_NO.search`: leftmost position with three digits followed by
a full-tail match of the alternation; returns capture group 1. -/
def searchDuct : List Char → Option String
  | a :: b :: c :: t =>
    if a.isDigit && b.isDigit && c.isDigit && ductTail t then
      some (String.mk [a, b, c])
    else searchDuct (b :: c :: t)
  | _ => none

/-- The pattern matches at position `i` of `cs` (ending the string). -/
def ductMatchAt (cs : List Char) (i : Nat) : Bool :=
  match cs.drop i with
  | a :: b :: c :: t => a.isDigit && b.isDigit && c.isDigit && ductTail t
  | _ => false

/-- `du_code.split("(")[0].strip().upper()` (app.py lines 62-63). -/
def ductCoreU (s : String) : String :=
  upperStr (String.mk (pyStrip (s.toList.takeWhile (fun c => c != '('))))

/-- `extract_duct_no` (app.py lines 59-65); `none` models a non-string
(NaN) cell. -/
def extract_duct_no : Option String → Option String
  | none => none
  | some s => searchDuct (ductCoreU s).toList

/-! ## `extract_unit_wbs` (app.py lines 67-76) -/

/-- `pkg_code.strip().strip("-").split("-")` as strings. -/
def segsOf (s : String) : List String :=
  (splitDash (pyStripDash (pyStrip s.toList))).map String.mk

/-- `extract_unit_wbs` (app.py lines 67-76); `none` input models a
non-string (NaN) cell. -/
def extract_unit_wbs : Option String → Option String × Option String
  | none => (none, none)
  | some s =>
    match segsOf s with
    | p0 :: p1 :: _ => (some p0, some (p0 ++ "-" ++ p1))
    | [p0] => if p0 = "" then (none, none) else (some p0, none)
    | [] => (none, none)

/-! ## Prefix resolver (app.py lines 52-54, 78-91)

`RE_AB_CODE = \bAB\s*\d{3}\b`, `RE_GB_CODE = \bGB\s*\d{3}\b`,
`RE_PANEL_TAG = PANEL|PANELASSY` (IGNORECASE, applied to text that is
already upper-cased), plus plain-substring `contains("AB")` /
`contains("GB")`. -/

/-- The part of `\b?B\s*\d{3}\b` after the two letters: any whitespace,
then exactly three digits, then a word boundary (end, or a non-word
character).  `\s*` is greedy but digits are not whitespace, so the
split is unique. -/
def bCodeTail (cs : List Char) : Bool :=
  match cs.dropWhile Char.isWhitespace with
  | a :: b :: c :: rest =>
    a.isDigit && b.isDigit && c.isDigit &&
      (match rest with
       | [] => true
       | d :: _ => !wordChar d)
  | _ => false

/-- `re.search` of `\b<c1><c2>\s*\d{3}\b` over a char list; `prevW` says
whether the character before the current position is a word character
(`false` at the start of the string). -/
def codeScan (c1 c2 : Char) : Bool → List Char → Bool
  | _, [] => false
  | prevW, c :: rest =>
    (!prevW && c == c1 &&
      (match rest with
       | c2c :: rest2 => c2c == c2 && bCodeTail rest2
       | [] => false)) ||
    codeScan c1 c2 (wordChar c) rest

/-- `U.str.contains(RE_AB_CODE)` / `...GB...` for one string. -/
def containsCode (c1 c2 : Char) (s : String) : Bool :=
  codeScan c1 c2 false s.toList

/-- Substring occurrence over char lists. -/
def hasSubChars (needle : List Char) : List Char → Bool
  | [] => needle.isEmpty
  | c :: rest => needle.isPrefixOf (c :: rest) || hasSubChars needle rest

/-- Plain substring test (`U.str.contains("AB")` on already-uppercased
text, regex-free because the needle has no metacharacters). -/
def hasSub (needle hay : String) : Bool :=
  hasSubChars needle.toList hay.toList

/-- `U.str.contains(RE_PANEL_TAG)`: `PANEL|PANELASSY`, on uppercased
text. -/
def isPanelDesc (u : String) : Bool := hasSub "PANEL" u || hasSub "PANELASSY" u

/-- `detect_duct_prefix_for_block` (app.py lines 78-91): the argument is
the `DU Description` column of one duct group; `dropna` then
`astype(str).str.upper()` is `filterMap id` then `upperStr`. -/
def detect_duct_prefix_for_block (descs : List (Option String)) : Option String :=
  let U := (descs.filterMap id).map upperStr
  if U.any (fun u => containsCode 'A' 'B' u) then some "AB"
  else if U.any (fun u => containsCode 'G' 'B' u) then some "GB"
  else if U.any (fun u => isPanelDesc u && hasSub "AB" u) then some "AB"
  else if U.any (fun u => isPanelDesc u && hasSub "GB" u) then some "GB"
  else none

/-! ## Rows and the derived-column stage of `load_uploaded_excels`
(app.py lines 143-150) -/

/-- One ingested record, after cell parsing: the nine required columns.
String cells are `Option String` (`none` = NaN under `dtype=str`);
`totalWeightRaw` is the `pd.to_numeric(..., errors="coerce")` reading of
the `Total Weight` cell before `fillna(0)`; `modifiedOn` is the
`pd.to_datetime(..., errors="coerce")` reading of `Modified On`. -/
structure Row where
  vendorName : Option String
  poNo : Option String
  pkgDesc : Option String
  duCode : Option String
  duDescription : Option String
  pkgMR : Option String
  markNo : Option String
  totalWeightRaw : Option Int
  modifiedOn : Option Nat
deriving DecidableEq

/-- A row with the derived columns of app.py lines 143-150 attached. -/
structure PRow where
  vendorName : Option String
  poNo : Option String
  pkgDesc : Option String
  duCode : Option String
  duDescription : Option String
  pkgMR : Option String
  markNo : Option String
  totalWeightRaw : Option Int
  modifiedOn : Option Nat
  ductNo : Option String
  unitNo : Option String
  wbsCode : Option String
  ductKey : Option String
  totalWeight : Int
deriving DecidableEq

/-- `str(x)` / `.astype(str)` of an optional string: pandas renders a
missing value as the string "None". -/
def pdStr : Option String → String
  | none => "None"
  | some s => s

/-- The `DU Description` cells of the duct group of `d`
(`df.groupby("Duct No")` group, app.py lines 96-99). -/
def groupDescs (rows : List Row) (d : String) : List (Option String) :=
  (rows.filter (fun r => decide (extract_duct_no r.duCode = some d))).map
    (fun r => r.duDescription)

/-- Prefix application: `prefix_series.fillna("") + duct_str` under
`np.where(prefix_series.notna(), ..., duct_str)` for one row. -/
def applyDuctPrefix (p : Option String) (d : String) : String :=
  match p with
  | some p0 => p0 ++ d
  | none => d

/-- The `Duct Key` value of one row (app.py lines 93-103): block-level
prefix looked up by the row's `Duct No`; a row with no `Duct No` gets
`astype(str)` of `None`, i.e. the string "None". -/
def ductKeyFor (rows : List Row) (dn : Option String) : String :=
  match dn with
  | none => pdStr none
  | some d => applyDuctPrefix (detect_duct_prefix_for_block (groupDescs rows d)) d

/-- `build_duct_key_column` (app.py lines 93-103), as a column: always a
string, hence never null. -/
def build_duct_key_column (rows : List Row) : List (Option String) :=
  rows.map (fun r => some (ductKeyFor rows (extract_duct_no r.duCode)))

/-- Derived columns for one row (app.py lines 143-150): `Duct No`,
`Unit No`/`WBS Code`, `Duct Key`, and the `fillna(0)` weight. -/
def processRow (rows : List Row) (r : Row) : PRow :=
  { vendorName := r.vendorName
    poNo := r.poNo
    pkgDesc := r.pkgDesc
    duCode := r.duCode
    duDescription := r.duDescription
    pkgMR := r.pkgMR
    markNo := r.markNo
    totalWeightRaw := r.totalWeightRaw
    modifiedOn := r.modifiedOn
    ductNo := extract_duct_no r.duCode
    unitNo := (extract_unit_wbs r.pkgMR).1
    wbsCode := (extract_unit_wbs r.pkgMR).2
    ductKey := some (ductKeyFor rows (extract_duct_no r.duCode))
    totalWeight := r.totalWeightRaw.getD 0 }

/-- The derived-column stage of `load_uploaded_excels` (app.py lines
143-150) over the whole table. -/
def process (rows : List Row) : List PRow := rows.map (processRow rows)

/-! ## Comparators for `sort_values`

pandas `sort_values(by=[...])` with the default `na_position="last"`:
lexicographic over the named columns, strings compared by code point,
missing values after all present ones.  We model each column comparison
by an `Ordering`-valued comparator and chain them with
`Ordering.then`; `le a b := cmp a b ≠ .gt` is the sort relation. -/

/-- Three-way comparison on `Nat`. -/
def cmpNat (a b : Nat) : Ordering :=
  if a < b then Ordering.lt else if b < a then Ordering.gt else Ordering.eq

/-- Code-point comparison on `Char` (Python string order). -/
def cmpChar (a b : Char) : Ordering := cmpNat a.toNat b.toNat

/-- Lexicographic comparison of lists. -/
def cmpList (cmp : α → α → Ordering) : List α → List α → Ordering
  | [], [] => Ordering.eq
  | [], _ :: _ => Ordering.lt
  | _ :: _, [] => Ordering.gt
  | a :: as, b :: bs => (cmp a b).then (cmpList cmp as bs)

/-- Python `<` on strings: lexicographic by code point. -/
def cmpStr (a b : String) : Ordering := cmpList cmpChar a.toList b.toList

/-- Comparison of an optional column value, `none` (NaN) last
(`na_position="last"`). -/
def cmpOptStr : Option String → Option String → Ordering
  | none, none => Ordering.eq
  | none, some _ => Ordering.gt
  | some _, none => Ordering.lt
  | some a, some b => cmpStr a b

/-- What a comparator must satisfy for `cmp · · ≠ .gt` to be a total
preorder: antisymmetric orientation, transitivity of `.lt`, and
congruence of `.eq` on the left. -/
structure CmpLawful {α : Type} (cmp : α → α → Ordering) : Prop where
  swap_eq : ∀ a b, cmp a b = (cmp b a).swap
  lt_trans : ∀ a b c, cmp a b = Ordering.lt → cmp b c = Ordering.lt →
    cmp a c = Ordering.lt
  eq_left : ∀ a b c, cmp a b = Ordering.eq → cmp b c = cmp a c

theorem CmpLawful.eq_right {cmp : α → α → Ordering} (h : CmpLawful cmp)
    (a b c : α) (hbc : cmp b c = Ordering.eq) : cmp a b = cmp a c := by
  have h1 : cmp c a = cmp b a := h.eq_left b c a hbc
  calc cmp a b = (cmp b a).swap := h.swap_eq a b
    _ = (cmp c a).swap := by rw [h1]
    _ = cmp a c := (h.swap_eq a c).symm

/-- `cmp · · ≠ .gt` is total. -/
theorem CmpLawful.le_total {cmp : α → α → Ordering} (h : CmpLawful cmp)
    (a b : α) : cmp a b ≠ Ordering.gt ∨ cmp b a ≠ Ordering.gt := by
  cases hab : cmp a b with
  | lt => exact Or.inl (by simp)
  | eq => exact Or.inl (by simp)
  | gt =>
    refine Or.inr ?_
    have := h.swap_eq a b
    rw [hab] at this
    cases hba : cmp b a <;> rw [hba] at this <;> simp [Ordering.swap] at this ⊢

/-- `cmp · · ≠ .gt` is transitive. -/
theorem CmpLawful.le_trans {cmp : α → α → Ordering} (h : CmpLawful cmp)
    (a b c : α) (h1 : cmp a b ≠ Ordering.gt) (h2 : cmp b c ≠ Ordering.gt) :
    cmp a c ≠ Ordering.gt := by
  cases hab : cmp a b with
  | gt => exact absurd hab h1
  | eq => rw [← h.eq_left a b c hab]; exact h2
  | lt =>
    cases hbc : cmp b c with
    | gt => exact absurd hbc h2
    | eq => rw [← h.eq_right a b c hbc, hab]; simp
    | lt => rw [h.lt_trans a b c hab hbc]; simp

/-- Pulling a lawful comparator back along a key. -/
theorem CmpLawful.comap {cmp : α → α → Ordering} (h : CmpLawful cmp)
    (k : β → α) : CmpLawful (fun x y => cmp (k x) (k y)) := by
  refine ⟨fun a b => h.swap_eq (k a) (k b),
    fun a b c => h.lt_trans (k a) (k b) (k c),
    fun a b c => h.eq_left (k a) (k b) (k c)⟩

theorem Ordering_swap_then (o p : Ordering) : (o.then p).swap = o.swap.then p.swap := by
  cases o <;> rfl

/-- `Ordering.then` of lawful comparators is lawful. -/
theorem CmpLawful.then_comp {f g : α → α → Ordering} (hf : CmpLawful f)
    (hg : CmpLawful g) : CmpLawful (fun a b => (f a b).then (g a b)) := by
  refine ⟨?_, ?_, ?_⟩
  · intro a b
    rw [hf.swap_eq a b, hg.swap_eq a b, Ordering_swap_then]
  · intro a b c h1 h2
    cases hab : f a b with
    | gt => rw [hab] at h1; simp [Ordering.then] at h1
    | lt =>
      cases hbc : f b c with
      | gt => rw [hbc] at h2; simp [Ordering.then] at h2
      | lt => simp [Ordering.then, hf.lt_trans a b c hab hbc]
      | eq =>
        have : f a c = Ordering.lt := by rw [← hf.eq_right a b c hbc]; exact hab
        simp [Ordering.then, this]
    | eq =>
      rw [hab] at h1; simp [Ordering.then] at h1
      cases hbc : f b c with
      | gt => rw [hbc] at h2; simp [Ordering.then] at h2
      | lt =>
        have : f a c = Ordering.lt := by rw [← hf.eq_left a b c hab]; exact hbc
        simp [Ordering.then, this]
      | eq =>
        rw [hbc] at h2; simp [Ordering.then] at h2
        have hac : f a c = Ordering.eq := by rw [← hf.eq_left a b c hab]; exact hbc
        simp [Ordering.then, hac, hg.lt_trans a b c h1 h2]
  · intro a b c h1
    have hfe : f a b = Ordering.eq := by
      cases hab : f a b <;> rw [hab] at h1 <;> simp [Ordering.then] at h1 <;> rfl
    have hge : g a b = Ordering.eq := by
      rw [hfe] at h1; simpa [Ordering.then] using h1
    rw [hf.eq_left a b c hfe, hg.eq_left a b c hge]

theorem cmpNat_lt_iff (a b : Nat) : cmpNat a b = Ordering.lt ↔ a < b := by
  unfold cmpNat
  split_ifs <;> simp <;> omega

theorem cmpNat_eq_iff (a b : Nat) : cmpNat a b = Ordering.eq ↔ a = b := by
  unfold cmpNat
  split_ifs <;> simp <;> omega

theorem cmpNat_gt_iff (a b : Nat) : cmpNat a b = Ordering.gt ↔ b < a := by
  unfold cmpNat
  split_ifs <;> simp <;> omega

theorem cmpNat_lawful : CmpLawful cmpNat := by
  refine ⟨?_, ?_, ?_⟩
  · intro a b
    rcases Nat.lt_trichotomy a b with h | h | h
    · rw [(cmpNat_lt_iff a b).mpr h, (cmpNat_gt_iff b a).mpr h]; rfl
    · rw [(cmpNat_eq_iff a b).mpr h, (cmpNat_eq_iff b a).mpr h.symm]; rfl
    · rw [(cmpNat_gt_iff a b).mpr h, (cmpNat_lt_iff b a).mpr h]; rfl
  · intro a b c h1 h2
    rw [cmpNat_lt_iff] at *
    omega
  · intro a b c h1
    rw [cmpNat_eq_iff] at h1
    rw [h1]

theorem cmpChar_lawful : CmpLawful cmpChar := cmpNat_lawful.comap Char.toNat

theorem cmpList_lawful {cmp : α → α → Ordering} (hc : CmpLawful cmp) :
    CmpLawful (cmpList cmp) := by
  refine ⟨?_, ?_, ?_⟩
  · intro a
    induction a with
    | nil => intro b; cases b <;> rfl
    | cons x xs ih =>
      intro b
      cases b with
      | nil => rfl
      | cons y ys =>
        show (cmp x y).then (cmpList cmp xs ys) = _
        rw [hc.swap_eq x y, ih ys, ← Ordering_swap_then]
        rfl
  · intro a
    induction a with
    | nil =>
      intro b c h1 h2
      cases b with
      | nil => exact absurd h1 (by simp [cmpList])
      | cons y ys =>
        cases c with
        | nil => exact absurd h2 (by simp [cmpList])
        | cons z zs => rfl
    | cons x xs ih =>
      intro b c h1 h2
      cases b with
      | nil => exact absurd h1 (by simp [cmpList])
      | cons y ys =>
        cases c with
        | nil => exact absurd h2 (by simp [cmpList])
        | cons z zs =>
          show (cmp x z).then (cmpList cmp xs zs) = Ordering.lt
          have h1 : (cmp x y).then (cmpList cmp xs ys) = Ordering.lt := h1
          have h2 : (cmp y z).then (cmpList cmp ys zs) = Ordering.lt := h2
          cases hxy : cmp x y with
          | gt => rw [hxy] at h1; simp [Ordering.then] at h1
          | lt =>
            cases hyz : cmp y z with
            | gt => rw [hyz] at h2; simp [Ordering.then] at h2
            | lt => simp [Ordering.then, hc.lt_trans x y z hxy hyz]
            | eq =>
              have : cmp x z = Ordering.lt := by
                rw [← hc.eq_right x y z hyz]; exact hxy
              simp [Ordering.then, this]
          | eq =>
            rw [hxy] at h1; simp [Ordering.then] at h1
            cases hyz : cmp y z with
            | gt => rw [hyz] at h2; simp [Ordering.then] at h2
            | lt =>
              have : cmp x z = Ordering.lt := by
                rw [← hc.eq_left x y z hxy]; exact hyz
              simp [Ordering.then, this]
            | eq =>
              rw [hyz] at h2; simp [Ordering.then] at h2
              have hxz : cmp x z = Ordering.eq := by
                rw [← hc.eq_left x y z hxy]; exact hyz
              simp [Ordering.then, hxz, ih ys zs h1 h2]
  · intro a
    induction a with
    | nil =>
      intro b c h1
      cases b with
      | nil => rfl
      | cons y ys => exact absurd h1 (by simp [cmpList])
    | cons x xs ih =>
      intro b c h1
      cases b with
      | nil => exact absurd h1 (by simp [cmpList])
      | cons y ys =>
        have h1 : (cmp x y).then (cmpList cmp xs ys) = Ordering.eq := h1
        have hxy : cmp x y = Ordering.eq := by
          cases hxy : cmp x y <;> rw [hxy] at h1 <;>
            simp [Ordering.then] at h1 <;> rfl
        rw [hxy] at h1; simp [Ordering.then] at h1
        cases c with
        | nil => rfl
        | cons z zs =>
          show (cmp y z).then (cmpList cmp ys zs) = (cmp x z).then (cmpList cmp xs zs)
          rw [hc.eq_left x y z hxy, ih ys zs h1]

theorem cmpStr_lawful : CmpLawful cmpStr :=
  (cmpList_lawful cmpChar_lawful).comap String.toList

theorem cmpOptStr_lawful : CmpLawful cmpOptStr := by
  refine ⟨?_, ?_, ?_⟩
  · intro a b
    cases a <;> cases b <;> simp [cmpOptStr, Ordering.swap]
    exact cmpStr_lawful.swap_eq _ _
  · intro a b c h1 h2
    cases a <;> cases b <;> cases c <;> simp_all [cmpOptStr]
    exact cmpStr_lawful.lt_trans _ _ _ h1 h2
  · intro a b c h1
    cases a <;> cases b <;> simp_all [cmpOptStr] <;> cases c <;>
      simp_all [cmpOptStr]
    exact cmpStr_lawful.eq_left _ _ _ h1

/-! ## Mark-number classification (app.py lines 55-56, 174-182)

`RE_PANEL_NO = ^P(\d+)$`, `RE_NUMERIC = ^\d+$`, over
`d["Mark No"].astype(str).str.strip().str.upper()`.  (`$` before a
trailing newline cannot trigger: the text is stripped first.) -/

/-- Decimal value of a digit string (`pd.to_numeric` on an all-digit
string; inputs here are small enough that int64 overflow is out of
scope). -/
def digitsVal (cs : List Char) : Nat :=
  cs.foldl (fun a c => a * 10 + (c.toNat - '0'.toNat)) 0

/-- `astype(str).str.strip().str.upper()` of a `Mark No` cell (a missing
value becomes the string "None"). -/
def pdUpperMark (m : Option String) : String :=
  upperStr (String.mk (pyStrip (pdStr m).toList))

/-- `RE_PANEL_NO` (`^P(\d+)$`): the captured number. -/
def panelNum (s : String) : Option Nat :=
  match s.toList with
  | c :: rest =>
    if c == 'P' && !rest.isEmpty && rest.all Char.isDigit then some (digitsVal rest)
    else none
  | [] => none

/-- `RE_NUMERIC` (`^\d+$`). -/
def isNumericStr (s : String) : Bool :=
  !s.toList.isEmpty && s.toList.all Char.isDigit

/-- The `10**9` sentinel of app.py lines 181-182. -/
def SENT : Nat := 10 ^ 9

/-- `__grp__` (app.py line 180): 0 = panel, 1 = numeric, 2 = other. -/
def markGrp (m : Option String) : Nat :=
  if (panelNum (pdUpperMark m)).isSome then 0
  else if isNumericStr (pdUpperMark m) then 1
  else 2

/-- `__ord1__` (app.py line 181): panel number, sentinel if absent. -/
def markOrd1 (m : Option String) : Nat := (panelNum (pdUpperMark m)).getD SENT

/-- `__ord2__` (app.py line 182): numeric value, sentinel if absent. -/
def markOrd2 (m : Option String) : Nat :=
  if isNumericStr (pdUpperMark m) then digitsVal (pdUpperMark m).toList else SENT

/-- The claim's single group-specific numeric key: panel number in group
0, numeric value in group 1, the large sentinel in group 2. -/
def markClaimKey (m : Option String) : Nat :=
  match panelNum (pdUpperMark m) with
  | some n => n
  | none => if isNumericStr (pdUpperMark m) then digitsVal (pdUpperMark m).toList else SENT

/-! ## `summarize_by_duct_vendor_po` (app.py lines 155-168) -/

/-- One aggregate output row (`Duct Key` is renamed to `Duct No` in the
displayed output; the field keeps the grouping column's name). -/
structure AggRow where
  ductKey : Option String
  unitNo : Option String
  wbsCode : Option String
  vendorName : Option String
  poNo : Option String
  pkgDesc : Option String
  total_Weight : Int
  latest_Modified_On : Option Nat
deriving DecidableEq

/-- The six-column grouping key; `none` (NaN) is its own key value
(`dropna=False`). -/
abbrev GKey := Option String × Option String × Option String ×
  Option String × Option String × Option String

set_option synthInstance.maxSize 512 in
instance : DecidableEq GKey := inferInstance

/-- The filter of app.py line 156. -/
def keptRow (r : PRow) : Bool := r.ductNo.isSome && r.ductKey.isSome

/-- Grouping key of a row. -/
def gkey (r : PRow) : GKey :=
  (r.ductKey, r.unitNo, r.wbsCode, r.vendorName, r.poNo, r.pkgDesc)

/-- Grouping key of an aggregate row. -/
def aggGkey (a : AggRow) : GKey :=
  (a.ductKey, a.unitNo, a.wbsCode, a.vendorName, a.poNo, a.pkgDesc)

/-- The rows of one group. -/
def groupOf (filt : List PRow) (k : GKey) : List PRow :=
  filt.filter (fun r => decide (gkey r = k))

/-- NaT-skipping binary max. -/
def maxOpt2 : Option Nat → Option Nat → Option Nat
  | none, m => m
  | some n, none => some n
  | some n, some m => some (max n m)

/-- `("Modified On", "max")`: maximum over the non-null dates, `none`
when all are null (pandas groupby max skips NaT). -/
def maxOptDate : List (Option Nat) → Option Nat
  | [] => none
  | d :: rest => maxOpt2 d (maxOptDate rest)

/-- The aggregate row of one group (app.py lines 161-164). -/
def mkAgg (filt : List PRow) (k : GKey) : AggRow :=
  { ductKey := k.1
    unitNo := k.2.1
    wbsCode := k.2.2.1
    vendorName := k.2.2.2.1
    poNo := k.2.2.2.2.1
    pkgDesc := k.2.2.2.2.2
    total_Weight := ((groupOf filt k).map (fun r => r.totalWeight)).sum
    latest_Modified_On := maxOptDate ((groupOf filt k).map (fun r => r.modifiedOn)) }

/-- `sort_values(by=["Duct Key", "Unit No", "Vendor Name", "PO No"])`
comparator (app.py line 165). -/
def cmpAgg (x y : AggRow) : Ordering :=
  (cmpOptStr x.ductKey y.ductKey).then
    ((cmpOptStr x.unitNo y.unitNo).then
      ((cmpOptStr x.vendorName y.vendorName).then (cmpOptStr x.poNo y.poNo)))

/-- The sort relation of the detailed summary. -/
def aggLE (a b : AggRow) : Prop := cmpAgg a b ≠ Ordering.gt

instance : DecidableRel aggLE :=
  fun a b => inferInstanceAs (Decidable (cmpAgg a b ≠ Ordering.gt))

theorem cmpAgg_lawful : CmpLawful cmpAgg :=
  CmpLawful.then_comp (cmpOptStr_lawful.comap (fun a : AggRow => a.ductKey))
    (CmpLawful.then_comp (cmpOptStr_lawful.comap (fun a : AggRow => a.unitNo))
      (CmpLawful.then_comp (cmpOptStr_lawful.comap (fun a : AggRow => a.vendorName))
        (cmpOptStr_lawful.comap (fun a : AggRow => a.poNo))))

instance : IsTotal AggRow aggLE := ⟨fun a b => cmpAgg_lawful.le_total a b⟩

instance : IsTrans AggRow aggLE := ⟨fun a b c => cmpAgg_lawful.le_trans a b c⟩

/-- `summarize_by_duct_vendor_po` (app.py lines 155-168): filter, group
by the six columns (`dropna=False`), aggregate, sort.  (The final
`rename` of `Duct Key` to `Duct No` is presentation only.) -/
def summarize_by_duct_vendor_po (rows : List PRow) : List AggRow :=
  List.insertionSort aggLE
    ((((rows.filter keptRow).map gkey).dedup).map (mkAgg (rows.filter keptRow)))

/-! ## `build_master_sheet` (app.py lines 170-194) -/

/-- The filter of app.py line 172. -/
def masterKept (r : PRow) : Bool := r.ductKey.isSome && r.ductNo.isSome

/-- The `sort_values` comparator of app.py lines 184-187: `Duct Key`,
`Unit No`, `__grp__`, `__ord1__`, `__ord2__`, `PO No`, `DU Code`,
`na_position="last"`. -/
def cmpMaster (x y : PRow) : Ordering :=
  (cmpOptStr x.ductKey y.ductKey).then
    ((cmpOptStr x.unitNo y.unitNo).then
      ((cmpNat (markGrp x.markNo) (markGrp y.markNo)).then
        ((cmpNat (markOrd1 x.markNo) (markOrd1 y.markNo)).then
          ((cmpNat (markOrd2 x.markNo) (markOrd2 y.markNo)).then
            ((cmpOptStr x.poNo y.poNo).then (cmpOptStr x.duCode y.duCode))))))

/-- The master sheet's sort relation, as the source computes it. -/
def masterLE (a b : PRow) : Prop := cmpMaster a b ≠ Ordering.gt

instance : DecidableRel masterLE :=
  fun a b => inferInstanceAs (Decidable (cmpMaster a b ≠ Ordering.gt))

theorem cmpMaster_lawful : CmpLawful cmpMaster :=
  CmpLawful.then_comp (cmpOptStr_lawful.comap (fun r : PRow => r.ductKey))
    (CmpLawful.then_comp (cmpOptStr_lawful.comap (fun r : PRow => r.unitNo))
      (CmpLawful.then_comp (cmpNat_lawful.comap (fun r : PRow => markGrp r.markNo))
        (CmpLawful.then_comp (cmpNat_lawful.comap (fun r : PRow => markOrd1 r.markNo))
          (CmpLawful.then_comp (cmpNat_lawful.comap (fun r : PRow => markOrd2 r.markNo))
            (CmpLawful.then_comp (cmpOptStr_lawful.comap (fun r : PRow => r.poNo))
              (cmpOptStr_lawful.comap (fun r : PRow => r.duCode)))))))

instance : IsTotal PRow masterLE := ⟨fun a b => cmpMaster_lawful.le_total a b⟩

instance : IsTrans PRow masterLE := ⟨fun a b c => cmpMaster_lawful.le_trans a b c⟩

/-- The claim's description of the same order: ascending by (Duct Key,
Unit No, group, group-specific numeric key, PO No, DU Code), nulls
last. -/
def cmpClaimMaster (x y : PRow) : Ordering :=
  (cmpOptStr x.ductKey y.ductKey).then
    ((cmpOptStr x.unitNo y.unitNo).then
      ((cmpNat (markGrp x.markNo) (markGrp y.markNo)).then
        ((cmpNat (markClaimKey x.markNo) (markClaimKey y.markNo)).then
          ((cmpOptStr x.poNo y.poNo).then (cmpOptStr x.duCode y.duCode)))))

/-- The claim's sort relation for the master sheet. -/
def claimMasterLE (a b : PRow) : Prop := cmpClaimMaster a b ≠ Ordering.gt

/-- `build_master_sheet` (app.py lines 170-194): filter, sort by the
mark-number classification.  Column selection, the `Duct Key` rename
and `format_date_cols` reshape the columns of each row for display and
are not modelled; the row order and content is. -/
def build_master_sheet (rows : List PRow) : List PRow :=
  List.insertionSort masterLE (rows.filter masterKept)

/-! ## `load_uploaded_excels` (app.py lines 15-25, 120-152)

One uploaded file is read with `pd.read_excel(uf, sheet_name=None,
dtype=str)`: either a list of sheets, or an exception whose message is
collected with the file's name.  A sheet carries its header (`cols`,
used by the required-column check) and its records (already in the
typed `Row` shape; looking a cell up by column name is abstracted,
since `Row` carries exactly the nine required columns).  The
`ValueError(f"Missing columns: {missing}")` of line 141 is modelled as
`Except.error missing`. -/

/-- One sheet of an uploaded workbook. -/
structure Sheet where
  cols : List String
  rows : List Row
deriving DecidableEq

/-- One uploaded file: its name, and the outcome of reading it. -/
structure UFile where
  name : String
  content : Except String (List Sheet)

/-- The required columns (app.py lines 15-25). -/
def REQUIRED_COLS : List String :=
  ["Vendor Name", "PO No", "Package Code of Description", "DU Code",
   "DU Description", "Total Weight", "Modified On", "Package Code of MR",
   "Mark No"]

/-- `_df is not None and not _df.empty` (app.py line 128). -/
def sheetNonempty (s : Sheet) : Bool := !s.rows.isEmpty && !s.cols.isEmpty

/-- The reading loop of app.py lines 123-131: usable sheets in order,
and `(name, message)` pairs for unreadable files. -/
def ingest : List UFile → List Sheet × List (String × String)
  | [] => ([], [])
  | f :: fs =>
    match f.content with
    | Except.ok shs => (shs.filter sheetNonempty ++ (ingest fs).1, (ingest fs).2)
    | Except.error e => ((ingest fs).1, (f.name, e) :: (ingest fs).2)

/-- Column union of `pd.concat` (first-appearance order). -/
def unionCols (ls : List (List String)) : List String :=
  ls.join.foldl (fun acc c => if acc.contains c then acc else acc ++ [c]) []

/-- `pd.concat(all_rows, ignore_index=True)` (app.py line 136). -/
def concatSheets (shs : List Sheet) : Sheet :=
  { cols := unionCols (shs.map (fun s => s.cols))
    rows := (shs.map (fun s => s.rows)).join }

/-- `big.columns = [c.strip() for c in big.columns]` (app.py line 137). -/
def stripCols (s : Sheet) : Sheet :=
  { cols := s.cols.map (fun c => String.mk (pyStrip c.toList)), rows := s.rows }

/-- `[c for c in REQUIRED_COLS if c not in big.columns]` (line 139). -/
def missingCols (cols : List String) : List String :=
  REQUIRED_COLS.filter (fun c => !cols.contains c)

/-- `load_uploaded_excels` (app.py lines 120-152): read every file,
collect per-file errors; with no usable sheet return an empty table and
the errors; otherwise concatenate, strip column names, fail on missing
required columns, else attach the derived columns (`process`). -/
def load_uploaded_excels (files : List UFile) :
    Except (List String) (List PRow × List (String × String)) :=
  let sheets := (ingest files).1
  let errs := (ingest files).2
  if sheets.isEmpty then Except.ok ([], errs)
  else
    let big := stripCols (concatSheets sheets)
    if (missingCols big.cols).isEmpty then Except.ok (process big.rows, errs)
    else Except.error (missingCols big.cols)

/-- A file whose content was read successfully. -/
def isReadable (f : UFile) : Bool :=
  match f.content with
  | Except.ok _ => true
  | Except.error _ => false

/-- The `(name, message)` pairs the reading loop collects. -/
def readErrsOf (files : List UFile) : List (String × String) :=
  files.filterMap (fun f =>
    match f.content with
    | Except.error e => some (f.name, e)
    | Except.ok _ => none)

/-! ## Claim theorems -/

/-- C6: `extract_unit_wbs` returns `(none, none)` on a non-string input;
otherwise it trims whitespace then hyphens, splits on hyphen, and
returns `(segment0, segment0 ++ "-" ++ segment1)` for at least two
segments, `(segment0, none)` for exactly one non-empty segment, and
`(none, none)` otherwise; "U1-WBS20-XYZ" gives ("U1", "U1-WBS20"),
"U1" gives ("U1", none), "" gives (none, none). -/
theorem extract_unit_wbs_conformance :
    extract_unit_wbs none = (none, none) ∧
    (∀ s : String,
      (∀ p0 p1 rest, segsOf s = p0 :: p1 :: rest →
        extract_unit_wbs (some s) = (some p0, some (p0 ++ "-" ++ p1))) ∧
      (∀ p0, segsOf s = [p0] → p0 ≠ "" →
        extract_unit_wbs (some s) = (some p0, none)) ∧
      (∀ p0, segsOf s = [p0] → p0 = "" →
        extract_unit_wbs (some s) = (none, none)) ∧
      (segsOf s = [] → extract_unit_wbs (some s) = (none, none))) ∧
    extract_unit_wbs (some "U1-WBS20-XYZ") = (some "U1", some "U1-WBS20") ∧
    extract_unit_wbs (some "U1") = (some "U1", none) ∧
    extract_unit_wbs (some "") = (none, none) := by
  refine ⟨rfl, fun s => ⟨?_, ?_, ?_, ?_⟩, by decide, by decide, by decide⟩
  · intro p0 p1 rest h
    simp only [extract_unit_wbs, h]
  · intro p0 h hne
    simp only [extract_unit_wbs, h, if_neg hne]
  · intro p0 h he
    simp only [extract_unit_wbs, h, if_pos he]
  · intro h
    simp only [extract_unit_wbs, h]

theorem extract_unit_wbs_conformance_witness :
    segsOf "U1-WBS20-XYZ" = "U1" :: "WBS20" :: ["XYZ"] ∧
    extract_unit_wbs (some "U1-WBS20-XYZ") = (some "U1", some ("U1" ++ "-" ++ "WBS20")) :=
  ⟨by decide,
    (extract_unit_wbs_conformance.2.1 "U1-WBS20-XYZ").1 "U1" "WBS20" ["XYZ"] (by decide)⟩

/-- C10: a null Unit No always comes with a null WBS Code, and a
non-null WBS Code comes with a non-null Unit No and equals the Unit No
followed by "-" and the second hyphen-separated segment. -/
theorem extract_unit_wbs_wbs_needs_unit :
    (∀ x : Option String, (extract_unit_wbs x).1 = none → (extract_unit_wbs x).2 = none) ∧
    (∀ (x : Option String) (w : String), (extract_unit_wbs x).2 = some w →
      ∃ u, (extract_unit_wbs x).1 = some u ∧
        ∃ s, x = some s ∧ w = u ++ "-" ++ (segsOf s).getD 1 "") := by
  constructor
  · intro x
    cases x with
    | none => intro _; rfl
    | some s =>
      rcases hseg : segsOf s with _ | ⟨p0, _ | ⟨p1, rest⟩⟩ <;>
        simp only [extract_unit_wbs, hseg]
      · simp
      · split_ifs <;> simp
      · simp
  · intro x w h
    cases x with
    | none => simp [extract_unit_wbs] at h
    | some s =>
      rcases hseg : segsOf s with _ | ⟨p0, _ | ⟨p1, rest⟩⟩ <;>
        simp only [extract_unit_wbs, hseg] at h
      · simp at h
      · split_ifs at h <;> simp at h
      · refine ⟨p0, ?_, s, rfl, ?_⟩
        · simp only [extract_unit_wbs, hseg]
        · simp at h
          rw [← h, hseg]
          rfl

theorem extract_unit_wbs_wbs_needs_unit_witness :
    (extract_unit_wbs (some "U1-WBS20-XYZ")).2 = some "U1-WBS20" ∧
    ∃ u, (extract_unit_wbs (some "U1-WBS20-XYZ")).1 = some u ∧
      ∃ s, (some "U1-WBS20-XYZ" : Option String) = some s ∧
        "U1-WBS20" = u ++ "-" ++ (segsOf s).getD 1 "" :=
  ⟨by decide,
    extract_unit_wbs_wbs_needs_unit.2 (some "U1-WBS20-XYZ") "U1-WBS20" (by decide)⟩

/-- C9: the report generation is deterministic — equal input tables (and
equal uploaded file lists) give equal reports; a second run of the same
pure pipeline is the same function application, so running twice on
identical inputs yields identical outputs. -/
theorem pipeline_deterministic (df1 df2 : List PRow) (files1 files2 : List UFile)
    (h1 : df1 = df2) (h2 : files1 = files2) :
    summarize_by_duct_vendor_po df1 = summarize_by_duct_vendor_po df2 ∧
    build_master_sheet df1 = build_master_sheet df2 ∧
    load_uploaded_excels files1 = load_uploaded_excels files2 := by
  subst h1
  subst h2
  exact ⟨rfl, rfl, rfl⟩

theorem pipeline_deterministic_witness :
    ([] : List PRow) = [] ∧ ([] : List UFile) = [] ∧
    (summarize_by_duct_vendor_po [] = summarize_by_duct_vendor_po [] ∧
     build_master_sheet [] = build_master_sheet [] ∧
     load_uploaded_excels [] = load_uploaded_excels []) :=
  ⟨rfl, rfl, pipeline_deterministic [] [] [] [] rfl rfl⟩

theorem ductMatchAt_short (cs : List Char) (i : Nat)
    (h : (List.drop i cs).length < 3) : ductMatchAt cs i = false := by
  unfold ductMatchAt
  rcases hd : List.drop i cs with _ | ⟨a, _ | ⟨b, _ | ⟨c, t⟩⟩⟩
  · rfl
  · rfl
  · rfl
  · rw [hd] at h
    exfalso
    simp only [List.length_cons] at h
    omega

theorem ductMatchAt_succ (c : Char) (cs : List Char) (i : Nat) :
    ductMatchAt (c :: cs) (i + 1) = ductMatchAt cs i := rfl

/-- `searchDuct` returns `none` exactly when no position matches. -/
theorem searchDuct_none_iff :
    ∀ cs : List Char, searchDuct cs = none ↔ ∀ i, ductMatchAt cs i = false := by
  intro cs
  induction cs with
  | nil =>
    constructor
    · intro _ i
      exact ductMatchAt_short [] i (by simp)
    · intro _
      rfl
  | cons a l ih =>
    rcases l with _ | ⟨b, _ | ⟨c, t⟩⟩
    · constructor
      · intro _ i
        refine ductMatchAt_short [a] i ?_
        rw [List.length_drop]
        simp only [List.length_cons, List.length_nil]
        omega
      · intro _
        rfl
    · constructor
      · intro _ i
        refine ductMatchAt_short [a, b] i ?_
        rw [List.length_drop]
        simp only [List.length_cons, List.length_nil]
        omega
      · intro _
        rfl
    · by_cases hc : (a.isDigit && b.isDigit && c.isDigit && ductTail t) = true
      · constructor
        · intro h
          simp only [searchDuct, if_pos hc] at h
          exact Option.noConfusion h
        · intro h
          exfalso
          have h0 := h 0
          rw [show ductMatchAt (a :: b :: c :: t) 0 =
            (a.isDigit && b.isDigit && c.isDigit && ductTail t) from rfl] at h0
          rw [hc] at h0
          exact Bool.noConfusion h0
      · constructor
        · intro h i
          simp only [searchDuct, if_neg hc] at h
          match i with
          | 0 =>
            rw [show ductMatchAt (a :: b :: c :: t) 0 =
              (a.isDigit && b.isDigit && c.isDigit && ductTail t) from rfl]
            exact Bool.not_eq_true _ |>.mp hc
          | j + 1 =>
            rw [ductMatchAt_succ]
            exact (ih.mp h) j
        · intro h
          simp only [searchDuct, if_neg hc]
          exact ih.mpr (fun j => h (j + 1))

/-- A `some` result of `searchDuct` is the first three characters at a
matching position. -/
theorem searchDuct_some_match :
    ∀ (cs : List Char) (g : String), searchDuct cs = some g →
      ∃ i, ductMatchAt cs i = true ∧ g = String.mk ((List.drop i cs).take 3) := by
  intro cs
  induction cs with
  | nil => intro g h; exact absurd h (by simp [searchDuct])
  | cons a l ih =>
    rcases l with _ | ⟨b, _ | ⟨c, t⟩⟩
    · intro g h
      exact absurd h (by simp [searchDuct])
    · intro g h
      exact absurd h (by simp [searchDuct])
    · intro g h
      by_cases hc : (a.isDigit && b.isDigit && c.isDigit && ductTail t) = true
      · refine ⟨0, ?_, ?_⟩
        · rw [show ductMatchAt (a :: b :: c :: t) 0 =
            (a.isDigit && b.isDigit && c.isDigit && ductTail t) from rfl]
          exact hc
        · simp only [searchDuct, if_pos hc, Option.some.injEq] at h
          rw [← h]
          rfl
      · simp only [searchDuct, if_neg hc] at h
        rcases ih g h with ⟨i, hi, hg⟩
        exact ⟨i + 1, by rw [ductMatchAt_succ]; exact hi, hg⟩

/-- C2: `extract_duct_no` returns null on a non-string input; otherwise
it takes the part before the first parenthesis, trims, uppercases
(`ductCoreU`), and returns the leading 3-digit capture of a position
where three digits are followed to the end of the string by `P` plus 2
digits, or 1-3 uppercase letters plus 2-3 digits, or exactly 3 digits
(`ductMatchAt`), null when no position matches; the four sample codes
give "637" and "NO-MATCH-HERE" gives null. -/
theorem extract_duct_no_conformance :
    extract_duct_no none = none ∧
    (∀ s : String,
      ((extract_duct_no (some s)).isSome = true ↔
        ∃ i, ductMatchAt (ductCoreU s).toList i = true) ∧
      (∀ g, extract_duct_no (some s) = some g →
        ∃ i, ductMatchAt (ductCoreU s).toList i = true ∧
          g = String.mk ((List.drop i (ductCoreU s).toList).take 3))) ∧
    extract_duct_no (some "AHU-04-637X01") = some "637" ∧
    extract_duct_no (some "AHU-04-637HX01") = some "637" ∧
    extract_duct_no (some "AHU-04-637P02") = some "637" ∧
    extract_duct_no (some "AHU-04-637123") = some "637" ∧
    extract_duct_no (some "NO-MATCH-HERE") = none := by
  refine ⟨rfl, fun s => ⟨?_, ?_⟩, by decide, by decide, by decide, by decide, by decide⟩
  · constructor
    · intro h
      rcases Option.isSome_iff_exists.mp h with ⟨g, hg⟩
      rcases searchDuct_some_match _ g hg with ⟨i, hi, _⟩
      exact ⟨i, hi⟩
    · rintro ⟨i, hi⟩
      cases he : extract_duct_no (some s) with
      | some g => rfl
      | none =>
        exfalso
        have := (searchDuct_none_iff (ductCoreU s).toList).mp he i
        rw [hi] at this
        exact Bool.noConfusion this
  · intro g hg
    exact searchDuct_some_match _ g hg

theorem extract_duct_no_conformance_witness :
    extract_duct_no (some "AHU-04-637X01") = some "637" ∧
    ∃ i, ductMatchAt (ductCoreU "AHU-04-637X01").toList i = true ∧
      "637" = String.mk ((List.drop i (ductCoreU "AHU-04-637X01").toList).take 3) :=
  ⟨by decide,
    (extract_duct_no_conformance.2.1 "AHU-04-637X01").2 "637" (by decide)⟩

theorem filter_filter_absorb {α : Type} (p q : α → Bool)
    (h : ∀ a, p a = true → q a = true) (l : List α) :
    (l.filter q).filter p = l.filter p := by
  induction l with
  | nil => rfl
  | cons a t ih =>
    by_cases hq : q a = true
    · by_cases hp : p a = true <;> simp [List.filter_cons, hq, hp, ih]
    · have hp : p a = false := by
        cases hpa : p a
        · rfl
        · exact absurd (h a hpa) hq
      simp [List.filter_cons, hq, hp, ih]

/-- A row whose `DU Code` yields no duct number. -/
def exRowC1 : Row :=
  { vendorName := none, poNo := none, pkgDesc := none,
    duCode := some "NO-MATCH-HERE", duDescription := none, pkgMR := none,
    markNo := none, totalWeightRaw := none, modifiedOn := none }

/-- C1 counterexample: the claimed invariant "Duct Key is non-null iff
Duct Number is non-null" is false: a row with no duct number gets
`astype(str)` of `None`, i.e. the non-null string "None", as its Duct
Key. -/
theorem duct_key_iff_cex :
    ¬ (∀ rows : List Row, ∀ r ∈ process rows,
        (r.ductKey.isSome = true ↔ r.ductNo.isSome = true)) := by
  intro h
  have h2 := (h [exRowC1] (processRow [exRowC1] exRowC1) (by decide)).mp (by decide)
  exact absurd h2 (by decide)

/-- C1 amended: the derived Duct Key is always non-null — equal to the
string "None" when the Duct Number is null — so "Duct Number non-null
implies Duct Key non-null" holds but not the converse; nevertheless any
row lacking a Duct Number (hence any row lacking either field) is
excluded from both the detailed summary and the master sheet, because
both filters also require a non-null Duct Number. -/
theorem duct_key_total_and_exclusion (rows : List Row) :
    (∀ r ∈ process rows, r.ductKey.isSome = true) ∧
    (∀ r ∈ process rows, r.ductNo = none → r.ductKey = some "None") ∧
    summarize_by_duct_vendor_po (process rows) =
      summarize_by_duct_vendor_po ((process rows).filter (fun r => r.ductNo.isSome)) ∧
    build_master_sheet (process rows) =
      build_master_sheet ((process rows).filter (fun r => r.ductNo.isSome)) := by
  refine ⟨?_, ?_, ?_, ?_⟩
  · intro r hr
    rcases List.mem_map.mp hr with ⟨r0, _, rfl⟩
    rfl
  · intro r hr hdn
    rcases List.mem_map.mp hr with ⟨r0, _, rfl⟩
    have hdn2 : extract_duct_no r0.duCode = none := hdn
    show some (ductKeyFor rows (extract_duct_no r0.duCode)) = some "None"
    rw [hdn2]
    rfl
  · have he : ((process rows).filter (fun r => r.ductNo.isSome)).filter keptRow
        = (process rows).filter keptRow :=
      filter_filter_absorb keptRow (fun r => r.ductNo.isSome)
        (fun r hr => (Bool.and_eq_true _ _ ▸ hr).1) (process rows)
    unfold summarize_by_duct_vendor_po
    rw [he]
  · have he : ((process rows).filter (fun r => r.ductNo.isSome)).filter masterKept
        = (process rows).filter masterKept :=
      filter_filter_absorb masterKept (fun r => r.ductNo.isSome)
        (fun r hr => (Bool.and_eq_true _ _ ▸ hr).2) (process rows)
    unfold build_master_sheet
    rw [he]

theorem duct_key_total_and_exclusion_witness :
    (processRow [exRowC1] exRowC1 ∈ process [exRowC1]) ∧
    (processRow [exRowC1] exRowC1).ductNo = none ∧
    (processRow [exRowC1] exRowC1).ductKey = some "None" :=
  ⟨by decide, by decide,
    (duct_key_total_and_exclusion [exRowC1]).2.1 (processRow [exRowC1] exRowC1)
      (by decide) (by decide)⟩

/-! ## C3: the prefix resolver -/

/-- The C3 claim's reading of the AB/GB evidence pattern: the two
letters, optional whitespace, then exactly three digits (no fourth
digit), anywhere in the string — with no word boundaries.  Follows the
claim's words, to be compared with the source's `containsCode`. -/
def looseTail (cs : List Char) : Bool :=
  match cs.dropWhile Char.isWhitespace with
  | a :: b :: c :: rest =>
    a.isDigit && b.isDigit && c.isDigit &&
      (match rest with
       | [] => true
       | d :: _ => !d.isDigit)
  | _ => false

/-- Occurrence scan for the claim's loose pattern. -/
def looseScan (c1 c2 : Char) : List Char → Bool
  | [] => false
  | c :: rest =>
    (c == c1 &&
      (match rest with
       | c2c :: rest2 => c2c == c2 && looseTail rest2
       | [] => false)) ||
    looseScan c1 c2 rest

/-- The claim's "contains AB plus optional whitespace plus exactly 3
digits anywhere". -/
def containsLooseCode (c1 c2 : Char) (s : String) : Bool :=
  looseScan c1 c2 s.toList

/-- C3 counterexample: the source pattern is `\bAB\s*\d{3}\b`, with word
boundaries the claim omits.  The description "XAB123" contains "AB"
plus exactly three digits, so the claim forces prefix "AB", but the
regex does not match ("X" is a word character before "AB") and the
block yields no prefix. -/
theorem detect_duct_prefix_cex :
    ¬ (∀ descs : List (Option String),
        ((descs.filterMap id).map upperStr).any
          (fun u => containsLooseCode 'A' 'B' u) = true →
        detect_duct_prefix_for_block descs = some "AB") := by
  intro h
  have := h [some "XAB123"] (by decide)
  exact absurd this (by decide)

/-- C3 amended: with the source's word-bounded patterns
(`\bAB\s*\d{3}\b` etc., `containsCode`), the priority order of
`detect_duct_prefix_for_block` is as claimed — AB code, then GB code,
then PANEL with "AB", then PANEL with "GB", else none — and the
block-level decision is broadcast: every processed row with duct number
`d` gets Duct Key = prefix ++ d (or d unchanged with no prefix), even
when its own description lacks the pattern. -/
theorem detect_duct_prefix_amended (rows : List Row) :
    (∀ descs : List (Option String),
      (((descs.filterMap id).map upperStr).any (fun u => containsCode 'A' 'B' u) = true →
        detect_duct_prefix_for_block descs = some "AB") ∧
      (((descs.filterMap id).map upperStr).any (fun u => containsCode 'A' 'B' u) = false →
        ((descs.filterMap id).map upperStr).any (fun u => containsCode 'G' 'B' u) = true →
        detect_duct_prefix_for_block descs = some "GB") ∧
      (((descs.filterMap id).map upperStr).any (fun u => containsCode 'A' 'B' u) = false →
        ((descs.filterMap id).map upperStr).any (fun u => containsCode 'G' 'B' u) = false →
        ((descs.filterMap id).map upperStr).any
          (fun u => isPanelDesc u && hasSub "AB" u) = true →
        detect_duct_prefix_for_block descs = some "AB") ∧
      (((descs.filterMap id).map upperStr).any (fun u => containsCode 'A' 'B' u) = false →
        ((descs.filterMap id).map upperStr).any (fun u => containsCode 'G' 'B' u) = false →
        ((descs.filterMap id).map upperStr).any
          (fun u => isPanelDesc u && hasSub "AB" u) = false →
        ((descs.filterMap id).map upperStr).any
          (fun u => isPanelDesc u && hasSub "GB" u) = true →
        detect_duct_prefix_for_block descs = some "GB") ∧
      (((descs.filterMap id).map upperStr).any (fun u => containsCode 'A' 'B' u) = false →
        ((descs.filterMap id).map upperStr).any (fun u => containsCode 'G' 'B' u) = false →
        ((descs.filterMap id).map upperStr).any
          (fun u => isPanelDesc u && hasSub "AB" u) = false →
        ((descs.filterMap id).map upperStr).any
          (fun u => isPanelDesc u && hasSub "GB" u) = false →
        detect_duct_prefix_for_block descs = none)) ∧
    (∀ r ∈ process rows, ∀ d, r.ductNo = some d →
      r.ductKey = some (applyDuctPrefix
        (detect_duct_prefix_for_block (groupDescs rows d)) d)) := by
  constructor
  · intro descs
    refine ⟨?_, ?_, ?_, ?_, ?_⟩
    · intro h1
      simp [detect_duct_prefix_for_block, h1]
    · intro h1 h2
      simp [detect_duct_prefix_for_block, h1, h2]
    · intro h1 h2 h3
      simp [detect_duct_prefix_for_block, h1, h2, h3]
    · intro h1 h2 h3 h4
      simp [detect_duct_prefix_for_block, h1, h2, h3, h4]
    · intro h1 h2 h3 h4
      simp [detect_duct_prefix_for_block, h1, h2, h3, h4]
  · intro r hr d hd
    rcases List.mem_map.mp hr with ⟨r0, _, rfl⟩
    have hd2 : extract_duct_no r0.duCode = some d := hd
    show some (ductKeyFor rows (extract_duct_no r0.duCode)) = _
    rw [hd2]
    rfl

/-- Two rows of one duct group (637): the first description carries
"AB123", the second carries no pattern at all. -/
def exRowAB1 : Row :=
  { vendorName := none, poNo := none, pkgDesc := none,
    duCode := some "AHU-04-637X01", duDescription := some "FOO AB123 BAR",
    pkgMR := none, markNo := none, totalWeightRaw := none, modifiedOn := none }

/-- Second row of the 637 group, description without any AB/GB code. -/
def exRowAB2 : Row :=
  { vendorName := none, poNo := none, pkgDesc := none,
    duCode := some "AHU-05-637P02", duDescription := some "NOTHING HERE",
    pkgMR := none, markNo := none, totalWeightRaw := none, modifiedOn := none }

/-- The example duct group for the C3 witness. -/
def exRowsAB : List Row := [exRowAB1, exRowAB2]

theorem detect_duct_prefix_amended_witness :
    (processRow exRowsAB exRowAB2 ∈ process exRowsAB) ∧
    (processRow exRowsAB exRowAB2).ductNo = some "637" ∧
    (processRow exRowsAB exRowAB2).ductKey = some (applyDuctPrefix
      (detect_duct_prefix_for_block (groupDescs exRowsAB "637")) "637") ∧
    (processRow exRowsAB exRowAB2).ductKey = some "AB637" :=
  ⟨by decide, by decide,
    (detect_duct_prefix_amended exRowsAB).2 (processRow exRowsAB exRowAB2)
      (by decide) "637" (by decide),
    by decide⟩

/-! ## C4: the aggregator -/

theorem maxOptDate_eq_none_iff :
    ∀ l : List (Option Nat), maxOptDate l = none ↔ l.filterMap id = [] := by
  intro l
  induction l with
  | nil => simp [maxOptDate]
  | cons d rest ih =>
    cases d with
    | none =>
      have h1 : maxOptDate (none :: rest) = maxOptDate rest := rfl
      have hfc : (none :: rest).filterMap id = rest.filterMap id := rfl
      rw [h1, hfc]
      exact ih
    | some n =>
      constructor
      · intro h
        exfalso
        have h2 : maxOpt2 (some n) (maxOptDate rest) = none := h
        cases hm : maxOptDate rest <;> rw [hm] at h2 <;> exact Option.noConfusion h2
      · intro h
        exfalso
        have hfc : (some n :: rest).filterMap id = n :: rest.filterMap id := rfl
        rw [hfc] at h
        exact List.noConfusion h

theorem maxOptDate_some_spec :
    ∀ (l : List (Option Nat)) (m : Nat), maxOptDate l = some m →
      m ∈ l.filterMap id ∧ ∀ d ∈ l.filterMap id, d ≤ m := by
  intro l
  induction l with
  | nil => intro m h; exact absurd h (by simp [maxOptDate])
  | cons d rest ih =>
    intro m h
    cases d with
    | none =>
      have h1 : maxOptDate (none :: rest) = maxOptDate rest := rfl
      have hfc : (none :: rest).filterMap id = rest.filterMap id := rfl
      rw [h1] at h
      rcases ih m h with ⟨h2, h3⟩
      rw [hfc]
      exact ⟨h2, h3⟩
    | some n =>
      have hfc : (some n :: rest).filterMap id = n :: rest.filterMap id := rfl
      rw [hfc]
      cases hm : maxOptDate rest with
      | none =>
        have hnm : n = m := by
          have h2 : maxOpt2 (some n) (maxOptDate rest) = some m := h
          rw [hm] at h2
          exact Option.some_inj.mp h2
        subst hnm
        have hempty : rest.filterMap id = [] := (maxOptDate_eq_none_iff rest).mp hm
        constructor
        · exact List.mem_cons_self _ _
        · intro x hx
          rw [hempty] at hx
          simp at hx
          simp [hx]
      | some m2 =>
        have hmax : max n m2 = m := by
          have h2 : maxOpt2 (some n) (maxOptDate rest) = some m := h
          rw [hm] at h2
          exact Option.some_inj.mp h2
        rcases ih m2 hm with ⟨h2, h3⟩
        constructor
        · rcases Nat.le_total n m2 with hle | hle
          · rw [← hmax, Nat.max_eq_right hle]
            exact List.mem_cons_of_mem _ h2
          · rw [← hmax, Nat.max_eq_left hle]
            exact List.mem_cons_self _ _
        · intro x hx
          simp only [List.mem_cons] at hx
          rcases hx with rfl | hx
          · rw [← hmax]
            exact Nat.le_max_left _ _
          · calc x ≤ m2 := h3 x hx
              _ ≤ max n m2 := Nat.le_max_right _ _
              _ = m := hmax

/-- C4: the detailed summary keeps exactly the rows with a non-null
Duct No and a non-null Duct Key; it emits one output row per distinct
six-column group key (null key values forming their own group value);
each output row's Total Weight is the sum of its group's weights, where
a missing/unparseable raw weight entered the table as 0; its Latest
Modified On is the maximum non-null date of the group, null when all
the group's dates are null; and the output is sorted ascending by
(Duct Key, Unit No, Vendor Name, PO No) with nulls last (`aggLE`). -/
theorem summarize_by_duct_vendor_po_conformance :
    (∀ rows : List PRow,
      ((summarize_by_duct_vendor_po rows).map aggGkey).Perm
        (((rows.filter keptRow).map gkey).dedup) ∧
      List.Sorted aggLE (summarize_by_duct_vendor_po rows) ∧
      (∀ a ∈ summarize_by_duct_vendor_po rows,
        a.total_Weight =
          ((groupOf (rows.filter keptRow) (aggGkey a)).map (fun r => r.totalWeight)).sum ∧
        (a.latest_Modified_On = none ↔
          (groupOf (rows.filter keptRow) (aggGkey a)).filterMap (fun r => r.modifiedOn) = []) ∧
        (∀ m, a.latest_Modified_On = some m →
          m ∈ (groupOf (rows.filter keptRow) (aggGkey a)).filterMap (fun r => r.modifiedOn) ∧
            ∀ d ∈ (groupOf (rows.filter keptRow) (aggGkey a)).filterMap
              (fun r => r.modifiedOn), d ≤ m))) ∧
    (∀ raws : List Row,
      (process raws).map (fun r => r.totalWeight) =
        raws.map (fun r => r.totalWeightRaw.getD 0)) := by
  constructor
  · intro rows
    refine ⟨?_, ?_, ?_⟩
    · have hperm := (List.perm_insertionSort aggLE
        ((((rows.filter keptRow).map gkey).dedup).map (mkAgg (rows.filter keptRow)))).map aggGkey
      rw [List.map_map] at hperm
      have hid : (((rows.filter keptRow).map gkey).dedup).map
          (aggGkey ∘ mkAgg (rows.filter keptRow)) =
          ((rows.filter keptRow).map gkey).dedup := by
        have hfn : aggGkey ∘ mkAgg (rows.filter keptRow) = id := funext (fun k => rfl)
        rw [hfn, List.map_id]
      rw [hid] at hperm
      exact hperm
    · exact List.sorted_insertionSort aggLE _
    · intro a ha
      have hmem : a ∈ (((rows.filter keptRow).map gkey).dedup).map
          (mkAgg (rows.filter keptRow)) :=
        (List.perm_insertionSort aggLE _).mem_iff.mp ha
      rcases List.mem_map.mp hmem with ⟨k, _, rfl⟩
      have hkey : aggGkey (mkAgg (rows.filter keptRow) k) = k := rfl
      rw [hkey]
      have hfm : ((groupOf (rows.filter keptRow) k).map
          (fun r => r.modifiedOn)).filterMap id =
          (groupOf (rows.filter keptRow) k).filterMap (fun r => r.modifiedOn) := by
        rw [List.filterMap_map]
        rfl
      refine ⟨rfl, ?_, ?_⟩
      · have h := maxOptDate_eq_none_iff
          ((groupOf (rows.filter keptRow) k).map (fun r => r.modifiedOn))
        rw [hfm] at h
        exact h
      · intro m hm
        have hm2 : maxOptDate ((groupOf (rows.filter keptRow) k).map
            (fun r => r.modifiedOn)) = some m := hm
        have h := maxOptDate_some_spec
          ((groupOf (rows.filter keptRow) k).map (fun r => r.modifiedOn)) m hm2
        rw [hfm] at h
        exact h
  · intro raws
    unfold process
    rw [List.map_map]
    rfl

/-- First row of the aggregator example: weight 10, date 100. -/
def exSumRow1 : PRow :=
  { vendorName := some "V", poNo := some "PO1", pkgDesc := some "PKG",
    duCode := some "DU-1", duDescription := none, pkgMR := none, markNo := none,
    totalWeightRaw := some 10, modifiedOn := some 100,
    ductNo := some "637", unitNo := some "U1", wbsCode := some "U1-W2",
    ductKey := some "AB637", totalWeight := 10 }

/-- Second row of the same group: weight 15, null date. -/
def exSumRow2 : PRow :=
  { exSumRow1 with
    duCode := some "DU-2", totalWeightRaw := some 15,
    modifiedOn := none, totalWeight := 15 }

/-- The aggregator example table. -/
def exSumRows : List PRow := [exSumRow1, exSumRow2]

/-- The single aggregate row the example produces: 10 + 15 = 25, latest
date the non-null 100. -/
def exAggRow : AggRow :=
  { ductKey := some "AB637", unitNo := some "U1", wbsCode := some "U1-W2",
    vendorName := some "V", poNo := some "PO1", pkgDesc := some "PKG",
    total_Weight := 25, latest_Modified_On := some 100 }

theorem summarize_by_duct_vendor_po_conformance_witness :
    (exAggRow ∈ summarize_by_duct_vendor_po exSumRows) ∧
    exAggRow.latest_Modified_On = some 100 ∧
    exAggRow.total_Weight =
      ((groupOf (exSumRows.filter keptRow) (aggGkey exAggRow)).map
        (fun r => r.totalWeight)).sum ∧
    (100 ∈ (groupOf (exSumRows.filter keptRow) (aggGkey exAggRow)).filterMap
        (fun r => r.modifiedOn) ∧
      ∀ d ∈ (groupOf (exSumRows.filter keptRow) (aggGkey exAggRow)).filterMap
        (fun r => r.modifiedOn), d ≤ 100) :=
  ⟨by decide, by decide,
    (((summarize_by_duct_vendor_po_conformance.1 exSumRows).2.2) exAggRow (by decide)).1,
    (((summarize_by_duct_vendor_po_conformance.1 exSumRows).2.2) exAggRow
      (by decide)).2.2 100 (by decide)⟩

/-! ## C5: the master-sheet ordering -/

theorem then_eq_l (p : Ordering) : Ordering.eq.then p = p := rfl

theorem then_lt (p : Ordering) : Ordering.lt.then p = Ordering.lt := rfl

theorem then_gt (p : Ordering) : Ordering.gt.then p = Ordering.gt := rfl

theorem cmpNat_self (a : Nat) : cmpNat a a = Ordering.eq := by
  unfold cmpNat
  simp

/-- A mark string matching `^P(\d+)$` is not all digits. -/
theorem panel_not_numeric (s : String) (n : Nat) (h : panelNum s = some n) :
    isNumericStr s = false := by
  unfold panelNum at h
  unfold isNumericStr
  cases hl : s.toList with
  | nil =>
    rw [hl] at h
    exact Option.noConfusion h
  | cons c rest =>
    rw [hl] at h
    by_cases hcond : (c == 'P' && !rest.isEmpty && rest.all Char.isDigit) = true
    · have hc : c = 'P' := by
        have h1 := (Bool.and_eq_true _ _ ▸ hcond).1
        have h2 := (Bool.and_eq_true _ _ ▸ h1).1
        exact eq_of_beq h2
      subst hc
      have hPd : ('P'.isDigit) = false := by decide
      simp [List.all_cons, hPd]
    · have h2 : (if (c == 'P' && !rest.isEmpty && rest.all Char.isDigit) = true
          then some (digitsVal rest) else none) = some n := h
      rw [if_neg hcond] at h2
      exact Option.noConfusion h2

/-- Each mark is panel (group 0), numeric (group 1) or other (group 2),
and the three sort keys are determined accordingly. -/
theorem mark_cases (m : Option String) :
    (∃ n, panelNum (pdUpperMark m) = some n ∧ markGrp m = 0 ∧ markOrd1 m = n ∧
      markOrd2 m = SENT ∧ markClaimKey m = n) ∨
    (panelNum (pdUpperMark m) = none ∧ isNumericStr (pdUpperMark m) = true ∧
      markGrp m = 1 ∧ markOrd1 m = SENT ∧
      markOrd2 m = digitsVal (pdUpperMark m).toList ∧
      markClaimKey m = digitsVal (pdUpperMark m).toList) ∨
    (markGrp m = 2 ∧ markOrd1 m = SENT ∧ markOrd2 m = SENT ∧
      markClaimKey m = SENT) := by
  cases hp : panelNum (pdUpperMark m) with
  | some n =>
    left
    have hnn := panel_not_numeric (pdUpperMark m) n hp
    exact ⟨n, rfl, by simp [markGrp, hp], by simp [markOrd1, hp],
      by simp [markOrd2, hnn], by simp [markClaimKey, hp]⟩
  | none =>
    cases hn : isNumericStr (pdUpperMark m) with
    | true =>
      right
      left
      exact ⟨rfl, rfl, by simp [markGrp, hp, hn], by simp [markOrd1, hp],
        by simp [markOrd2, hn], by simp [markClaimKey, hp, hn]⟩
    | false =>
      right
      right
      exact ⟨by simp [markGrp, hp, hn], by simp [markOrd1, hp],
        by simp [markOrd2, hn], by simp [markClaimKey, hp, hn]⟩

theorem cmpNat01 : cmpNat 0 1 = Ordering.lt := by decide

theorem cmpNat02 : cmpNat 0 2 = Ordering.lt := by decide

theorem cmpNat12 : cmpNat 1 2 = Ordering.lt := by decide

theorem cmpNat10 : cmpNat 1 0 = Ordering.gt := by decide

theorem cmpNat20 : cmpNat 2 0 = Ordering.gt := by decide

theorem cmpNat21 : cmpNat 2 1 = Ordering.gt := by decide

/-- The source's sort key (`__grp__`, `__ord1__`, `__ord2__`) and the
claim's sort key (group, single group-specific numeric key) induce the
same comparison: within group 0 only `__ord1__` varies, within group 1
only `__ord2__`, within group 2 neither. -/
theorem cmpMaster_eq_claimMaster (x y : PRow) :
    cmpMaster x y = cmpClaimMaster x y := by
  unfold cmpMaster cmpClaimMaster
  congr 1
  congr 1
  rcases mark_cases x.markNo with ⟨n1, _, hg1, ha1, hb1, hk1⟩ |
      ⟨_, _, hg1, ha1, hb1, hk1⟩ | ⟨hg1, ha1, hb1, hk1⟩ <;>
    rcases mark_cases y.markNo with ⟨n2, _, hg2, ha2, hb2, hk2⟩ |
        ⟨_, _, hg2, ha2, hb2, hk2⟩ | ⟨hg2, ha2, hb2, hk2⟩ <;>
      rw [hg1, ha1, hb1, hk1, hg2, ha2, hb2, hk2] <;>
      simp [cmpNat_self, then_eq_l, then_lt, then_gt, cmpNat01, cmpNat02,
        cmpNat12, cmpNat10, cmpNat20, cmpNat21]

theorem masterLE_iff_claim (a b : PRow) : masterLE a b ↔ claimMasterLE a b := by
  unfold masterLE claimMasterLE
  rw [cmpMaster_eq_claimMaster]

/-- Base row for the C5 ordering example. -/
def exMasterBase : PRow :=
  { vendorName := some "V", poNo := some "PO", pkgDesc := some "PK",
    duCode := some "DC", duDescription := none, pkgMR := none, markNo := none,
    totalWeightRaw := none, modifiedOn := none,
    ductNo := some "637", unitNo := some "U1", wbsCode := none,
    ductKey := some "AB637", totalWeight := 0 }

/-- The base row with a given mark number. -/
def exMasterRow (mark : Option String) : PRow :=
  { exMasterBase with markNo := mark }

/-- The C5 example: marks "3", "X9", "P10", "7", "P2" in scrambled
order, otherwise identical rows. -/
def exMasterRows : List PRow :=
  [exMasterRow (some "3"), exMasterRow (some "X9"), exMasterRow (some "P10"),
   exMasterRow (some "7"), exMasterRow (some "P2")]

/-- C5: the master sheet is sorted ascending by (Duct Key, Unit No,
group, group-specific numeric key, PO No, DU Code) with nulls last and
numeric comparison of the keys (`claimMasterLE`: group 0 = `P` plus
digits keyed by the number after `P`, group 1 = all digits keyed by its
value, group 2 = other keyed by the sentinel); in particular marks
"P2", "P10", "3", "7", "X9" come out in exactly that order. -/
theorem build_master_sheet_conformance :
    (∀ rows : List PRow, List.Sorted claimMasterLE (build_master_sheet rows)) ∧
    (build_master_sheet exMasterRows).map (fun r => r.markNo) =
      [some "P2", some "P10", some "3", some "7", some "X9"] := by
  constructor
  · intro rows
    have h := List.sorted_insertionSort masterLE (rows.filter masterKept)
    exact List.Pairwise.imp (fun hab => (masterLE_iff_claim _ _).mp hab) h
  · decide

/-! ## C7 and C8: schema errors and per-file read errors -/

/-- C7: after ingesting all sheets of all uploaded files (at least one
usable sheet) and trimming the column names, a missing required column
makes the run fail hard: `load_uploaded_excels` returns the error
naming exactly the missing columns, and produces no table — no derived
columns and no reports. -/
theorem load_missing_columns_fatal (files : List UFile)
    (hne : (ingest files).1 ≠ [])
    (hmiss : missingCols (stripCols (concatSheets (ingest files).1)).cols ≠ []) :
    load_uploaded_excels files =
      Except.error (missingCols (stripCols (concatSheets (ingest files).1)).cols) := by
  unfold load_uploaded_excels
  have h1 : (ingest files).1.isEmpty = false := by
    cases hs : (ingest files).1 with
    | nil => exact absurd hs hne
    | cons a l => rfl
  have h2 : (missingCols (stripCols (concatSheets (ingest files).1)).cols).isEmpty
      = false := by
    cases hs : missingCols (stripCols (concatSheets (ingest files).1)).cols with
    | nil => exact absurd hs hmiss
    | cons a l => rfl
  simp only [h1, Bool.false_eq_true, if_false, h2]

/-- A file with one nonempty sheet lacking the "Mark No" column. -/
def exFileMissing : UFile :=
  { name := "a.xlsx"
    content := Except.ok [{ cols := REQUIRED_COLS.erase "Mark No", rows := [exRowC1] }] }

theorem load_missing_columns_fatal_witness :
    (ingest [exFileMissing]).1 ≠ [] ∧
    missingCols (stripCols (concatSheets (ingest [exFileMissing]).1)).cols ≠ [] ∧
    load_uploaded_excels [exFileMissing] =
      Except.error (missingCols (stripCols (concatSheets (ingest [exFileMissing]).1)).cols) :=
  ⟨by decide, by decide,
    load_missing_columns_fatal [exFileMissing] (by decide) (by decide)⟩

/-- The ingest loop splits: the sheets are those of the readable files,
and the collected errors are the name/message pairs of the unreadable
ones. -/
theorem ingest_split (files : List UFile) :
    ingest files = ((ingest (files.filter isReadable)).1, readErrsOf files) ∧
    (ingest (files.filter isReadable)).2 = [] := by
  induction files with
  | nil => exact ⟨rfl, rfl⟩
  | cons f fs ih =>
    have ih1 := congrArg Prod.fst ih.1
    have ih2 := congrArg Prod.snd ih.1
    simp only at ih1 ih2
    cases hc : f.content with
    | ok shs =>
      have hr : isReadable f = true := by
        unfold isReadable
        rw [hc]
      constructor
      · rw [List.filter_cons_of_pos hr]
        show ingest (f :: fs) = _
        simp only [ingest, hc]
        rw [ih1, ih2]
        simp only [readErrsOf, List.filterMap_cons, hc]
      · rw [List.filter_cons_of_pos hr]
        simp only [ingest, hc]
        exact ih.2
    | error e =>
      have hr : isReadable f = false := by
        unfold isReadable
        rw [hc]
      constructor
      · rw [List.filter_cons_of_neg (by rw [hr]; exact Bool.noConfusion)]
        show ingest (f :: fs) = _
        simp only [ingest, hc]
        rw [ih1, ih2]
        simp only [readErrsOf, List.filterMap_cons, hc]
      · rw [List.filter_cons_of_neg (by rw [hr]; exact Bool.noConfusion)]
        exact ih.2

/-- C8: an unreadable file is skipped — its name and error message are
collected and returned while the rest of the pipeline behaves exactly
as if only the readable files had been uploaded; in particular a single
unreadable file never aborts the run. -/
theorem load_read_errors_recovered (files : List UFile) :
    load_uploaded_excels files =
      (load_uploaded_excels (files.filter isReadable)).map
        (fun p => (p.1, readErrsOf files)) := by
  have h := ingest_split files
  have h1 : (ingest files).1 = (ingest (files.filter isReadable)).1 := by
    rw [h.1]
  have h2 : (ingest files).2 = readErrsOf files := by
    rw [h.1]
  unfold load_uploaded_excels
  rw [h1, h2, h.2]
  by_cases hs : (ingest (files.filter isReadable)).1.isEmpty = true
  · simp [hs, Except.map]
  · by_cases hm : (missingCols (stripCols (concatSheets
        (ingest (files.filter isReadable)).1)).cols).isEmpty = true <;>
      simp [hs, hm, Except.map]

end DuctApp
